import Mathlib

/-!
Verification of the ATC control plane against its specification.

The definitions below are shallow embeddings of the repository's Go code:

* `builds/tracker.go` — the build tracker's `Track` sweep;
* the exec engine (`execEngine.LookupBuild`, `execBuild.Resume`,
  `execBuild.buildStepFactory`);
* the pipeline-config store (`SQLDB.SaveConfig`, `SQLDB.OrderPipelines`,
  `SQLDB.GetAllActivePipelines`), whose implementation is not in the
  source tree and is therefore modelled from the spec and the
  repository's own tests (`db/pipeline_config_test.go`);
* the resource tracker (`resource.Tracker.Init` / `InitWithCache` /
  `InitWithSources`) and its `Cache`, likewise modelled from the spec
  and the repository's tests.

Collaborator calls (worker RPCs, volume lookups, JSON parsing) are
modelled as function-valued parameters so each code path stays
executable and decidable.
-/

namespace Atc

/-! ## Build plans (atc.Plan, the union-of-optionals shape)

The source represents a plan node as a struct in which every variant
field is a nullable pointer and at most one is set (`atc.Plan`).
Payloads below keep just enough structure for the dispatch in
`execBuild.buildStepFactory`; the dispatch never inspects them. -/

structure TaskPlan where
  name : String
deriving Repr

structure GetPlan where
  name : String
  resource : String
deriving Repr

structure PutPlan where
  name : String
  resource : String
deriving Repr

structure DependentGetPlan where
  name : String
  resource : String
deriving Repr

/-- Embedding of `atc.Plan`: one nullable field per variant, mirroring
the union-of-optionals serialized shape.  `timeout` carries the child
plan and the duration string; `onSuccess`/`onFailure`/`ensure` carry
the step and its hook. -/
inductive Plan where
  | mk
      (aggregate : Option (List Plan))
      (timeout : Option (Plan × String))
      (tryStep : Option Plan)
      (onSuccess : Option (Plan × Plan))
      (onFailure : Option (Plan × Plan))
      (ensure : Option (Plan × Plan))
      (task : Option TaskPlan)
      (get : Option GetPlan)
      (put : Option PutPlan)
      (dependentGet : Option DependentGetPlan)

def Plan.aggregate : Plan → Option (List Plan)
  | .mk a _ _ _ _ _ _ _ _ _ => a

def Plan.timeout : Plan → Option (Plan × String)
  | .mk _ t _ _ _ _ _ _ _ _ => t

def Plan.tryStep : Plan → Option Plan
  | .mk _ _ t _ _ _ _ _ _ _ => t

def Plan.onSuccess : Plan → Option (Plan × Plan)
  | .mk _ _ _ s _ _ _ _ _ _ => s

def Plan.onFailure : Plan → Option (Plan × Plan)
  | .mk _ _ _ _ f _ _ _ _ _ => f

def Plan.ensure : Plan → Option (Plan × Plan)
  | .mk _ _ _ _ _ e _ _ _ _ => e

def Plan.task : Plan → Option TaskPlan
  | .mk _ _ _ _ _ _ t _ _ _ => t

def Plan.get : Plan → Option GetPlan
  | .mk _ _ _ _ _ _ _ g _ _ => g

def Plan.put : Plan → Option PutPlan
  | .mk _ _ _ _ _ _ _ _ p _ => p

def Plan.dependentGet : Plan → Option DependentGetPlan
  | .mk _ _ _ _ _ _ _ _ _ d => d

/-- The plan node in which no variant field is set: what an unknown
(future) variant deserializes to, since the decoder drops fields the
struct does not declare. -/
def emptyPlan : Plan := .mk none none none none none none none none none none

/-- Which step builder `execBuild.buildStepFactory` selected for a
node.  Each constructor stands for the corresponding `build*Step`
call; `identity` is the fall-through `exec.Identity{}` value. -/
inductive StepFactory where
  | aggregate (p : Plan)
  | timeout (p : Plan)
  | tryStep (p : Plan)
  | onSuccess (p : Plan)
  | onFailure (p : Plan)
  | ensure (p : Plan)
  | task (p : Plan)
  | get (p : Plan)
  | put (p : Plan)
  | dependentGet (p : Plan)
  | identity

/-- Embedding of `execBuild.buildStepFactory`: the sequential nil-checks
of the source, in source order, with the source's final
`return exec.Identity{}` as the fall-through. -/
def buildStepFactory (p : Plan) : StepFactory :=
  if p.aggregate.isSome then .aggregate p
  else if p.timeout.isSome then .timeout p
  else if p.tryStep.isSome then .tryStep p
  else if p.onSuccess.isSome then .onSuccess p
  else if p.onFailure.isSome then .onFailure p
  else if p.ensure.isSome then .ensure p
  else if p.task.isSome then .task p
  else if p.get.isSome then .get p
  else if p.put.isSome then .put p
  else if p.dependentGet.isSome then .dependentGet p
  else .identity

/-- Whether some known variant field of the node is set. -/
def planHasKnownVariant (p : Plan) : Bool :=
  p.aggregate.isSome || p.timeout.isSome || p.tryStep.isSome ||
    p.onSuccess.isSome || p.onFailure.isSome || p.ensure.isSome ||
    p.task.isSome || p.get.isSome || p.put.isSome || p.dependentGet.isSome

/-- Specification-side step lookup, written from the spec's words
(§6 Plan serialization: "Unknown variants cause the build to error on
resume").  A node with a known variant maps to the step factory the
source selects; a node with no known variant must be rejected
(`none` plays the error).  To be compared with `buildStepFactory`,
which is total and never rejects. -/
def specStepFactory (p : Plan) : Option StepFactory :=
  if planHasKnownVariant p then some (buildStepFactory p) else none

/-! ## The resume loop (`execBuild.Resume`)

`Resume` backgrounds the root step and then selects between the
process-exit channel and the build's signal channel.  We model one run
of the loop as a fold over the finite sequence of channel events it
observes.  `source.Result(&succeeded)` is modelled by an
`Option Bool`: `none` when the step provides no result (the source
then logs and forces `succeeded = false`), `some v` when it writes
`v`. -/

inductive OSSignal where
  | kill
  | other
deriving DecidableEq, Repr

inductive ResumeEvent where
  | exited (err : Option String)
  | signal (sig : OSSignal)
deriving DecidableEq, Repr

/-- Arguments of the final `build.delegate.Finish(logger, err, succeeded, aborted)` call. -/
structure FinishArgs where
  err : Option String
  succeeded : Bool
  aborted : Bool
deriving DecidableEq, Repr

/-- Value `succeeded` takes in the non-aborted exit branch:
`!source.Result(&succeeded)` forces `false`, otherwise the written value. -/
def sourceResultSucceeded (result : Option Bool) : Bool :=
  match result with
  | some v => v
  | none => false

/-- One run of `execBuild.Resume`'s select loop, starting from abort
flag `aborted`, consuming channel events in order.  Returns the
`Finish` call made on exit, or `none` if the event sequence ends
before the step exits (the loop would still be selecting). -/
def resumeLoop (result : Option Bool) : Bool → List ResumeEvent → Option FinishArgs
  | _, [] => none
  | aborted, .exited err :: _ =>
      some ⟨err, if aborted then false else sourceResultSucceeded result, aborted⟩
  | aborted, .signal sig :: rest =>
      resumeLoop result (aborted || (sig == .kill)) rest

/-- Embedding of `execBuild.Resume`: the loop starts with `aborted = false`. -/
def execBuildResume (result : Option Bool) (events : List ResumeEvent) : Option FinishArgs :=
  resumeLoop result false events

/-! ## The build tracker (`builds/tracker.go`)

`Track` fetches all started builds and, per build, looks the build up
in the engine.  `execEngine.LookupBuild` parses `engine_metadata`; a
parse failure is an error, on which `Track` calls
`buildDB.MarkAsFailed` and continues with the next build; otherwise it
resumes the build. -/

inductive BuildStatus where
  | pending
  | started
  | succeeded
  | failed
  | errored
  | aborted
deriving DecidableEq, Repr

/-- A started build as the tracker sees it: its id and the persisted
`engine_metadata` payload. -/
structure TBuild where
  id : Nat
  engineMetadata : String
deriving DecidableEq, Repr

/-- What one `Track` sweep did: status marks written through the build
DB, and the ids of the builds whose `Resume` was launched. -/
structure TrackOutcome where
  marked : List (Nat × BuildStatus)
  resumed : List Nat
deriving DecidableEq, Repr

/-- Modelled from the spec: `db.BuildDB.MarkAsFailed` is not under the
source tree (only its caller in `builds/tracker.go` is).  Per §4.6
"Builds whose `engine_metadata` fails to parse are marked `errored`"
and §7 "it transitions to `errored`, not `failed`", it finishes the
build with status errored.  (The caller's own log tag,
"failed-to-mark-build-as-errored", corroborates this.) -/
def markAsFailed (b : TBuild) : Nat × BuildStatus :=
  (b.id, BuildStatus.errored)

/-- Embedding of `Tracker.Track`'s per-build loop.  `parse` stands for
the `json.Unmarshal` of `engine_metadata` inside
`execEngine.LookupBuild`: an error return makes `LookupBuild` fail,
on which `Track` marks the build and `continue`s; otherwise the build
is resumed. -/
def track (parse : String → Except String Plan) : List TBuild → TrackOutcome
  | [] => ⟨[], []⟩
  | b :: rest =>
      let out := track parse rest
      match parse b.engineMetadata with
      | .error _ => ⟨markAsFailed b :: out.marked, out.resumed⟩
      | .ok _ => ⟨out.marked, b.id :: out.resumed⟩

/-! ## The pipeline-config store

Modelled from the spec: `db.SQLDB`'s pipeline-config methods
(`SaveConfig`, `GetConfig`, `OrderPipelines`, `GetAllActivePipelines`)
are not under the source tree; only their test,
`db/pipeline_config_test.go`, is.  The model follows §3 (Pipeline
`{id, name, paused, config_version, ordering}`; "`config_version`
increments on every successful save and gates optimistic updates"),
§4.1 ("active pipelines, ordered by `ordering`, then `id`"), §5
("`config_version` optimistic compare-and-swap gates pipeline config
updates; concurrent writers get `ErrConfigComparisonFailed`"), and the
behavior the repository's tests pin down: a pipeline created with
`PipelineNoChange` defaults to paused; `OrderPipelines` gives each
listed existing pipeline its position in the list and pushes every
other pipeline behind them (ordering `count + 1`); versions are drawn
from one increasing sequence. -/

/-- Pipeline configuration blob; its contents are opaque to the store. -/
abbrev Config := String

/-- Embedding of `db.PipelinePausedState` (`PipelinePaused`,
`PipelineUnpaused`, `PipelineNoChange`). -/
inductive PipelinePausedState where
  | pipelinePaused
  | pipelineUnpaused
  | pipelineNoChange
deriving DecidableEq, Repr

/-- A stored pipeline row (`db.SavedPipeline` flattened). -/
structure SavedPipeline where
  id : Nat
  name : String
  config : Config
  version : Nat
  paused : Bool
  ordering : Nat
deriving DecidableEq, Repr

/-- The pipelines table plus the id and config-version sequences. -/
structure DBState where
  pipelines : List SavedPipeline
  nextId : Nat
  nextVersion : Nat
deriving DecidableEq, Repr

/-- Errors `SaveConfig` can return; `errConfigComparisonFailed` is
`db.ErrConfigComparisonFailed`. -/
inductive SaveConfigError where
  | errConfigComparisonFailed
deriving DecidableEq, Repr

/-- Row lookup by pipeline name (`GetPipelineByName` / the `WHERE name =` clause). -/
def findPipeline (st : DBState) (name : String) : Option SavedPipeline :=
  st.pipelines.find? (fun p => p.name == name)

/-- The paused flag an update writes: `PipelineNoChange` keeps the
stored value, the other two force it. -/
def applyPausedState (ps : PipelinePausedState) (old : Bool) : Bool :=
  match ps with
  | .pipelinePaused => true
  | .pipelineUnpaused => false
  | .pipelineNoChange => old

/-- The paused flag a newly created pipeline gets: paused unless
explicitly created unpaused (creation with `PipelineNoChange` defaults
to paused, per the tests). -/
def createPaused (ps : PipelinePausedState) : Bool :=
  match ps with
  | .pipelinePaused => true
  | .pipelineUnpaused => false
  | .pipelineNoChange => true

/-- The updated row a successful compare-and-swap writes. -/
def updatePipeline (st : DBState) (cfg : Config) (ps : PipelinePausedState)
    (p : SavedPipeline) : SavedPipeline :=
  { p with config := cfg, version := st.nextVersion, paused := applyPausedState ps p.paused }

/-- The row an initial save inserts: fresh id and version, ordering
`count + 1` (behind every current pipeline). -/
def mkNewPipeline (st : DBState) (name : String) (cfg : Config)
    (ps : PipelinePausedState) : SavedPipeline :=
  { id := st.nextId, name := name, config := cfg, version := st.nextVersion,
    paused := createPaused ps, ordering := st.pipelines.length + 1 }

/-- Modelled from the spec: `SQLDB.SaveConfig(name, config, from,
pausedState)`.  For an existing pipeline it is an optimistic
compare-and-swap on `config_version`: a stale `from` yields
`ErrConfigComparisonFailed`, a matching one writes the new config with
a fresh version.  A missing pipeline is created (returning
`created = true`).  The transaction is the `Except`: an error leaves
the store untouched. -/
def saveConfig (st : DBState) (name : String) (cfg : Config) (fromVersion : Nat)
    (ps : PipelinePausedState) : Except SaveConfigError (DBState × Bool) :=
  match findPipeline st name with
  | some p =>
      if fromVersion ≠ p.version then
        .error .errConfigComparisonFailed
      else
        .ok ({ st with
                 pipelines := st.pipelines.map
                   (fun q => if q.name == name then updatePipeline st cfg ps q else q),
                 nextVersion := st.nextVersion + 1 },
             false)
  | none =>
      .ok ({ pipelines := st.pipelines ++ [mkNewPipeline st name cfg ps],
             nextId := st.nextId + 1,
             nextVersion := st.nextVersion + 1 },
           true)

/-- The store state after a `SaveConfig` call: unchanged when the call
returned an error (the transaction rolled back). -/
def saveConfigState (st : DBState) (name : String) (cfg : Config) (fromVersion : Nat)
    (ps : PipelinePausedState) : DBState :=
  match saveConfig st name cfg fromVersion ps with
  | .ok (st', _) => st'
  | .error _ => st

/-- The names in an `OrderPipelines` argument that match an existing
pipeline; names that match none are dropped (they have no effect). -/
def matchedNames (st : DBState) (names : List String) : List String :=
  names.filter (fun n => (findPipeline st n).isSome)

/-- The new ordering `OrderPipelines` gives one row: its position in
the matched list if listed, `count + 1` (behind everything) otherwise. -/
def reorderPipeline (matched : List String) (count : Nat) (p : SavedPipeline) : SavedPipeline :=
  if p.name ∈ matched then { p with ordering := List.indexOf p.name matched }
  else { p with ordering := count + 1 }

/-- Modelled from the spec: `SQLDB.OrderPipelines(names)`.  Every
pipeline's ordering is first reset to `count + 1`; each listed
existing pipeline then receives its position in the (matched) list, so
the listed pipelines come first, in list order, and everything else
ends up behind them. -/
def orderPipelines (st : DBState) (names : List String) : DBState :=
  { st with
      pipelines := st.pipelines.map
        (reorderPipeline (matchedNames st names) st.pipelines.length) }

/-- The listing order of `GetAllActivePipelines`: by `ordering`, then by `id`. -/
def pipelineLe (a b : SavedPipeline) : Prop :=
  a.ordering < b.ordering ∨ (a.ordering = b.ordering ∧ a.id ≤ b.id)

/-- Strict version of `pipelineLe`. -/
def pipelineLt (a b : SavedPipeline) : Prop :=
  a.ordering < b.ordering ∨ (a.ordering = b.ordering ∧ a.id < b.id)

instance : DecidableRel pipelineLe := fun a b => by
  unfold pipelineLe; infer_instance

instance : DecidableRel pipelineLt := fun a b => by
  unfold pipelineLt; infer_instance

instance : IsTotal SavedPipeline pipelineLe :=
  ⟨by intro a b; unfold pipelineLe; omega⟩

instance : IsTrans SavedPipeline pipelineLe :=
  ⟨by intro a b c; unfold pipelineLe; omega⟩

/-- Modelled from the spec: `SQLDB.GetAllActivePipelines` returns the
pipelines ordered by `ordering`, then `id` (§4.1). -/
def getAllActivePipelines (st : DBState) : List SavedPipeline :=
  st.pipelines.insertionSort pipelineLe

/-! ## The resource tracker and its cache

Modelled from the spec: `resource.Tracker` (`Init`, `InitWithCache`,
`InitWithSources`) and `resource.Cache` are not under the source tree;
only their test (`resource/tracker_test.go`) is.  The model follows
§4.5: "`FindContainerForIdentifier(id)` looks up any existing
container matching the step identity tuple.  If found, reuse;
otherwise create"; "Among candidates, prefer the worker that can
satisfy the most `mounts` locally (i.e., already holds the referenced
volumes).  Tie-break by lowest `active_containers`"; a cache volume
carries an `initialized` property ("A `get` step that completes
successfully sets `initialized=yep`.  Only initialized volumes are
candidates for reuse").  Collaborators (the worker pool, the volume
store) are passed in as canned-response records, exactly as the test's
counterfeiter fakes do, and every call made is logged as an effect. -/

/-- Step/session identity (`worker.Identifier`), kept opaque. -/
abbrev Identifier := String

/-- A baggageclaim volume: handle plus property map. -/
structure RVolume where
  handle : String
  properties : List (String × String)
deriving DecidableEq, Repr

/-- Property write on a volume (`Volume.SetProperty`): sets or
overwrites the named property. -/
def volumeSetProperty (v : RVolume) (name value : String) : RVolume :=
  { v with properties := (name, value) :: v.properties.filter (fun kv => kv.1 ≠ name) }

/-- Property read on a volume (`Volume.Properties()[name]`). -/
def lookupProperty (v : RVolume) (name : String) : Option String :=
  (v.properties.find? (fun kv => kv.1 == name)).map (·.2)

/-- A garden container as the tracker sees it: its handle and the
volumes mounted into it. -/
structure RContainer where
  handle : String
  volumes : List RVolume
deriving DecidableEq, Repr

/-- The session a step initializes (`resource.Session`): the step identity. -/
structure RSession where
  id : Identifier
deriving DecidableEq, Repr

/-- The resource a successful `Init*` returns, wrapping its container. -/
structure RResource where
  container : RContainer
deriving DecidableEq, Repr

/-- A worker candidate, with canned volume-store responses:
`findCacheVolume` is `CacheIdentifier.FindOn(this worker)`,
`createCacheVolume` is `CacheIdentifier.CreateOn(this worker)`, and
`createContainer` is this worker's `CreateContainer`. -/
structure RWorker where
  name : String
  activeContainers : Nat
  findCacheVolume : Except String (Option RVolume)
  createCacheVolume : Except String RVolume
  createContainer : Identifier → Except String RContainer
deriving Inhabited

/-- An artifact source of `InitWithSources`: `volumeOn w` is
`ArtifactSource.VolumeOn(w)` — the volume this source already has on
worker `w`, if any. -/
structure ASource where
  volumeOn : RWorker → Except String (Option RVolume)

/-- The worker pool as the tracker consumes it
(`worker.Client`), with canned responses like the test's fake:
`findContainerForIdentifier`, pool-level `createContainer`,
`Satisfying` and `AllSatisfying`. -/
structure WorkerClient where
  findContainerForIdentifier : Identifier → Except String (Option RContainer)
  createContainer : Identifier → Except String RContainer
  satisfying : Except String RWorker
  allSatisfying : Except String (List RWorker)

/-- Calls the tracker makes against the pool and workers, in order.
`createCalled none id` is the pool-level `CreateContainer`;
`createCalled (some w) id` is worker `w`'s. -/
inductive TrackerEffect where
  | findCalled (id : Identifier)
  | satisfyingCalled
  | allSatisfyingCalled
  | createCalled (workerName : Option String) (id : Identifier)
deriving DecidableEq, Repr

/-- The cache handle `InitWithCache` returns: a volume-backed cache,
or the no-op cache used when the worker manages no volumes. -/
inductive RCache where
  | volcache (v : RVolume)
  | noopcache
deriving DecidableEq, Repr

/-- Modelled from the spec: `Cache.Initialize` — "A `get` step that
completes successfully sets `initialized=yep`" — sets the `initialized`
property on the cache volume to `yep`; the no-op cache does nothing. -/
def cacheInit : RCache → RCache
  | .volcache v => .volcache (volumeSetProperty v "initialized" "yep")
  | .noopcache => .noopcache

/-- Modelled from the spec: `Cache.IsInitialized` — "Only initialized
volumes are candidates for reuse" — true exactly when the volume's
properties contain an `initialized` key (any value); the no-op cache
is never initialized. -/
def cacheIsInitialized : RCache → Bool
  | .volcache v => (lookupProperty v "initialized").isSome
  | .noopcache => false

/-- Modelled from the spec: `Tracker.Init`.  Look up a container for
the step identity; reuse it when found, otherwise create one for the
session identifier through the pool.  A lookup error aborts the call
before any other effect. -/
def trackerInit (wc : WorkerClient) (s : RSession) :
    Except String RResource × List TrackerEffect :=
  match wc.findContainerForIdentifier s.id with
  | .error e => (.error e, [.findCalled s.id])
  | .ok (some c) => (.ok ⟨c⟩, [.findCalled s.id])
  | .ok none =>
      match wc.createContainer s.id with
      | .error e => (.error e, [.findCalled s.id, .createCalled none s.id])
      | .ok c => (.ok ⟨c⟩, [.findCalled s.id, .createCalled none s.id])

/-- The cache handed back when an existing container is reused: backed
by the container's cache volume, or the no-op cache when the container
has none (per the tests). -/
def cacheOfContainer (c : RContainer) : RCache :=
  match c.volumes with
  | v :: _ => .volcache v
  | [] => .noopcache

/-- Modelled from the spec: `Tracker.InitWithCache`.  Reuse the
existing container when found (cache taken from its volumes);
otherwise pick a satisfying worker, find or create the cache volume on
it, and create the container there for the session identifier. -/
def trackerInitWithCache (wc : WorkerClient) (s : RSession) :
    Except String (RResource × RCache) × List TrackerEffect :=
  match wc.findContainerForIdentifier s.id with
  | .error e => (.error e, [.findCalled s.id])
  | .ok (some c) => (.ok (⟨c⟩, cacheOfContainer c), [.findCalled s.id])
  | .ok none =>
      match wc.satisfying with
      | .error e => (.error e, [.findCalled s.id, .satisfyingCalled])
      | .ok w =>
          let eff := [TrackerEffect.findCalled s.id, .satisfyingCalled,
                      .createCalled (some w.name) s.id]
          match w.findCacheVolume with
          | .error e => (.error e, [.findCalled s.id, .satisfyingCalled])
          | .ok (some v) =>
              match w.createContainer s.id with
              | .error e => (.error e, eff)
              | .ok c => (.ok (⟨c⟩, .volcache v), eff)
          | .ok none =>
              match w.createCacheVolume with
              | .error e => (.error e, [.findCalled s.id, .satisfyingCalled])
              | .ok v =>
                  match w.createContainer s.id with
                  | .error e => (.error e, eff)
                  | .ok c => (.ok (⟨c⟩, .volcache v), eff)

/-- How many of the given artifact sources already have a volume on
worker `w` — the number of mounts `w` can satisfy locally. -/
def localCount (srcs : List (String × ASource)) (w : RWorker) : Nat :=
  (srcs.filter (fun sv =>
    match sv.2.volumeOn w with
    | .ok (some _) => true
    | _ => false)).length

/-- The better of two candidate workers: strictly more local volumes
wins; on a tie, the lower `active_containers` count wins (spec §4.5). -/
def betterWorker (srcs : List (String × ASource)) (w₁ w₂ : RWorker) : RWorker :=
  if localCount srcs w₂ > localCount srcs w₁ then w₂
  else if localCount srcs w₂ = localCount srcs w₁ ∧
      w₂.activeContainers < w₁.activeContainers then w₂
  else w₁

/-- Worker selection of `InitWithSources` over the satisfying set. -/
def chooseWorker (srcs : List (String × ASource)) : List RWorker → Option RWorker
  | [] => none
  | w :: ws => some (ws.foldl (betterWorker srcs) w)

/-- Effectful map over a list in the `Except` monad, stopping at the
first error (`mapM`, unfolded for easy induction). -/
def exceptMapM (f : α → Except String β) : List α → Except String (List β)
  | [] => .ok []
  | a :: l =>
      match f a with
      | .error e => .error e
      | .ok b =>
          match exceptMapM f l with
          | .error e => .error e
          | .ok bs => .ok (b :: bs)

/-- Volume lookups for every source on one worker; any failing lookup
aborts the whole call. -/
def sourceVolumesOn (srcs : List (String × ASource)) (w : RWorker) :
    Except String (List (String × Option RVolume)) :=
  exceptMapM (fun sv => (sv.2.volumeOn w).map (fun ov => (sv.1, ov))) srcs

/-- The sources for which no volume was found on the chosen worker —
returned as the missing-sources list. -/
def missingOf (table : List (String × Option RVolume)) : List String :=
  (table.filter (fun nv => nv.2.isNone)).map (·.1)

/-- Modelled from the spec: `Tracker.InitWithSources`.  Reuse the
existing container when found (all sources are then reported missing,
per the tests); otherwise take all satisfying workers, look each
source's volume up on each of them, place the container on the worker
with the most local volumes, and report the sources that worker lacks
as missing. -/
def trackerInitWithSources (wc : WorkerClient) (s : RSession)
    (srcs : List (String × ASource)) :
    Except String (RResource × List String) × List TrackerEffect :=
  match wc.findContainerForIdentifier s.id with
  | .error e => (.error e, [.findCalled s.id])
  | .ok (some c) => (.ok (⟨c⟩, srcs.map (·.1)), [.findCalled s.id])
  | .ok none =>
      match wc.allSatisfying with
      | .error e => (.error e, [.findCalled s.id, .allSatisfyingCalled])
      | .ok ws =>
          match exceptMapM (fun w => (sourceVolumesOn srcs w).map (fun t => (w, t))) ws with
          | .error e => (.error e, [.findCalled s.id, .allSatisfyingCalled])
          | .ok _ =>
              match chooseWorker srcs ws with
              | none => (.error "no-workers", [.findCalled s.id, .allSatisfyingCalled])
              | some w =>
                  let eff := [TrackerEffect.findCalled s.id, .allSatisfyingCalled,
                              .createCalled (some w.name) s.id]
                  match sourceVolumesOn srcs w with
                  | .error e => (.error e, [.findCalled s.id, .allSatisfyingCalled])
                  | .ok table =>
                      match w.createContainer s.id with
                      | .error e => (.error e, eff)
                      | .ok c => (.ok (⟨c⟩, missingOf table), eff)

/-! ## Claims about the exec engine -/

/-- C2 counterexample: at the concrete plan node in which no variant
field is set, `buildStepFactory` hands back the ordinary `Identity`
step factory — exactly what `Resume` will run — while the
specification-side lookup demands rejection; the source therefore does
not refine the spec sentence at this input, so resuming does not error
on the unknown variant. -/
theorem c2_unknown_variant_counterexample :
    buildStepFactory emptyPlan = StepFactory.identity ∧
    specStepFactory emptyPlan = none ∧
    specStepFactory emptyPlan ≠ some (buildStepFactory emptyPlan) := by
  refine ⟨rfl, rfl, ?_⟩
  intro h
  rw [show specStepFactory emptyPlan = none from rfl] at h
  exact Option.noConfusion h

/-- C2 (amended): for every plan node in which no known variant field
is set, `buildStepFactory` falls through to `exec.Identity{}` — the
node is interpreted as a no-op pass-through step, and no error is
raised; the spec-side lookup, by contrast, rejects every such node. -/
theorem c2_unknown_variant_is_identity (p : Plan)
    (h : planHasKnownVariant p = false) :
    buildStepFactory p = StepFactory.identity ∧ specStepFactory p = none := by
  have h' := h
  unfold planHasKnownVariant at h'
  simp only [Bool.or_eq_false_iff] at h'
  obtain ⟨⟨⟨⟨⟨⟨⟨⟨⟨h1, h2⟩, h3⟩, h4⟩, h5⟩, h6⟩, h7⟩, h8⟩, h9⟩, h10⟩ := h'
  constructor
  · unfold buildStepFactory
    simp [h1, h2, h3, h4, h5, h6, h7, h8, h9, h10]
  · unfold specStepFactory
    simp [h]

/-- C2 witness: the amended claim applied at the all-fields-unset node. -/
theorem c2_unknown_variant_is_identity_witness :
    planHasKnownVariant emptyPlan = false ∧
    (buildStepFactory emptyPlan = StepFactory.identity ∧
      specStepFactory emptyPlan = none) :=
  ⟨rfl, c2_unknown_variant_is_identity emptyPlan rfl⟩

/-- Helper for C3: once a kill signal has been consumed (or the abort
flag is already set), whatever signals follow, the exit event makes the
loop finish with `succeeded = false` and `aborted = true`. -/
theorem resumeLoop_finishes_aborted (result : Option Bool) (err : Option String)
    (rest : List ResumeEvent) :
    ∀ (pre : List ResumeEvent) (a : Bool),
      (∀ e ∈ pre, ∃ s, e = ResumeEvent.signal s) →
      (ResumeEvent.signal OSSignal.kill ∈ pre ∨ a = true) →
      resumeLoop result a (pre ++ ResumeEvent.exited err :: rest) =
        some ⟨err, false, true⟩ := by
  intro pre
  induction pre with
  | nil =>
      intro a _ hk
      rcases hk with hk | hk
      · simp at hk
      · subst hk
        simp [resumeLoop]
  | cons e pre ih =>
      intro a hsig hk
      obtain ⟨s, rfl⟩ := hsig e (by simp)
      have hsig' : ∀ e ∈ pre, ∃ s, e = ResumeEvent.signal s :=
        fun e he => hsig e (List.mem_cons_of_mem _ he)
      simp only [List.cons_append, resumeLoop]
      rcases hk with hk | hk
      · rcases List.mem_cons.mp hk with hk | hk
        · have hs : s = OSSignal.kill := by
            cases hk
            rfl
          subst hs
          exact ih _ hsig' (Or.inr (by simp))
        · exact ih _ hsig' (Or.inl hk)
      · subst hk
        exact ih _ hsig' (Or.inr (by simp))

/-- C3: if an abort signal (`os.Kill`) reaches `Resume`'s select loop
before the root step's exit event, the build finishes with
`aborted = true` and `success = false`: `delegate.Finish` receives
`succeeded = false` and `aborted = true` regardless of the result the
step itself reports. -/
theorem c3_abort_before_exit_finishes_aborted (result : Option Bool)
    (pre rest : List ResumeEvent) (err : Option String)
    (hsig : ∀ e ∈ pre, ∃ s, e = ResumeEvent.signal s)
    (hkill : ResumeEvent.signal OSSignal.kill ∈ pre) :
    execBuildResume result (pre ++ ResumeEvent.exited err :: rest) =
      some ⟨err, false, true⟩ := by
  unfold execBuildResume
  exact resumeLoop_finishes_aborted result err rest pre false hsig (Or.inl hkill)

/-- C3 witness: a kill delivered before exit, with the step reporting
success, still finishes `(succeeded := false, aborted := true)`. -/
theorem c3_abort_before_exit_finishes_aborted_witness :
    execBuildResume (some true)
      [ResumeEvent.signal OSSignal.kill, ResumeEvent.exited none] =
      some ⟨none, false, true⟩ := by
  have h := c3_abort_before_exit_finishes_aborted (some true)
    [ResumeEvent.signal OSSignal.kill] [] none
    (by
      intro e he
      simp only [List.mem_singleton] at he
      exact ⟨OSSignal.kill, he⟩)
    (by simp)
  simpa using h

/-! ## Claims about the build tracker -/

/-- C1: in one `Track` sweep, every started build whose
`engine_metadata` fails to parse is marked — and every mark the sweep
writes is `errored`, never `failed` — while every build whose metadata
parses is still resumed, wherever it sits in the list (the sweep
`continue`s past failures). -/
theorem c1_track_marks_errored_and_continues
    (parse : String → Except String Plan) (builds : List TBuild) :
    (∀ x ∈ (track parse builds).marked, x.2 = BuildStatus.errored) ∧
    (∀ b ∈ builds,
      (∀ msg, parse b.engineMetadata = .error msg →
        (b.id, BuildStatus.errored) ∈ (track parse builds).marked) ∧
      (∀ pl, parse b.engineMetadata = .ok pl →
        b.id ∈ (track parse builds).resumed)) := by
  induction builds with
  | nil =>
      refine ⟨?_, ?_⟩
      · intro x hx
        simp [track] at hx
      · intro b hb
        simp at hb
  | cons b rest ih =>
      obtain ⟨ih1, ih2⟩ := ih
      constructor
      · intro x hx
        unfold track at hx
        rcases hp : parse b.engineMetadata with msg | pl
        · rw [hp] at hx
          simp only at hx
          rcases List.mem_cons.mp hx with hx | hx
          · subst hx
            rfl
          · exact ih1 x hx
        · rw [hp] at hx
          exact ih1 x hx
      · intro b' hb'
        rcases List.mem_cons.mp hb' with hb' | hb'
        · subst hb'
          constructor
          · intro msg hp
            unfold track
            rw [hp]
            exact List.mem_cons_self _ _
          · intro pl hp
            unfold track
            rw [hp]
            exact List.mem_cons_self _ _
        · constructor
          · intro msg hp
            unfold track
            rcases hq : parse b.engineMetadata with msg' | pl'
            · exact List.mem_cons_of_mem _ ((ih2 b' hb').1 msg hp)
            · exact (ih2 b' hb').1 msg hp
          · intro pl hp
            unfold track
            rcases hq : parse b.engineMetadata with msg' | pl'
            · exact (ih2 b' hb').2 pl hp
            · exact List.mem_cons_of_mem _ ((ih2 b' hb').2 pl hp)

/-- C1 witness: a sweep over a bad-metadata build followed by a good
one marks the first errored and still resumes the second. -/
theorem c1_track_marks_errored_and_continues_witness :
    (⟨1, "bad"⟩ : TBuild) ∈ [(⟨1, "bad"⟩ : TBuild), (⟨2, "ok"⟩ : TBuild)] ∧
    ((1 : Nat), BuildStatus.errored) ∈
      (track (fun s => if s = "ok" then .ok emptyPlan else .error "invalid character")
        [⟨1, "bad"⟩, ⟨2, "ok"⟩]).marked ∧
    (2 : Nat) ∈
      (track (fun s => if s = "ok" then .ok emptyPlan else .error "invalid character")
        [⟨1, "bad"⟩, ⟨2, "ok"⟩]).resumed := by
  have h := c1_track_marks_errored_and_continues
    (fun s => if s = "ok" then .ok emptyPlan else .error "invalid character")
    [⟨1, "bad"⟩, ⟨2, "ok"⟩]
  refine ⟨by simp, ?_, ?_⟩
  · exact (h.2 ⟨1, "bad"⟩ (by simp)).1 "invalid character" (by rfl)
  · exact (h.2 ⟨2, "ok"⟩ (by simp)).2 emptyPlan (by rfl)

/-! ## Claims about the resource tracker and its cache -/

/-- C7: `Cache.Initialize` writes the property `initialized = yep` on
the cache volume; `Cache.IsInitialized` is true exactly when the
volume's properties contain an `initialized` key, whatever its value;
hence a cache volume is reported reusable right after — and only
after — it has been initialized. -/
theorem c7_cache_initialized_property (v : RVolume) :
    cacheInit (RCache.volcache v) =
      RCache.volcache (volumeSetProperty v "initialized" "yep") ∧
    lookupProperty (volumeSetProperty v "initialized" "yep") "initialized" = some "yep" ∧
    (cacheIsInitialized (RCache.volcache v) = true ↔
      ∃ val, ("initialized", val) ∈ v.properties) ∧
    cacheIsInitialized (cacheInit (RCache.volcache v)) = true := by
  have hset : lookupProperty (volumeSetProperty v "initialized" "yep") "initialized" =
      some "yep" := by
    unfold volumeSetProperty lookupProperty
    rw [List.find?_cons_of_pos _ (by simp)]
    rfl
  refine ⟨rfl, hset, ?_, ?_⟩
  · show (lookupProperty v "initialized").isSome = true ↔ _
    unfold lookupProperty
    rw [Option.isSome_map', List.find?_isSome]
    constructor
    · rintro ⟨kv, hmem, hp⟩
      refine ⟨kv.2, ?_⟩
      have hk : kv.1 = "initialized" := by simpa using hp
      rw [← hk]
      simpa using hmem
    · rintro ⟨val, hmem⟩
      exact ⟨("initialized", val), hmem, by simp⟩
  · show (lookupProperty (volumeSetProperty v "initialized" "yep") "initialized").isSome = true
    rw [hset]
    rfl

/-- C9: when the container lookup itself fails, each of `Init`,
`InitWithCache` and `InitWithSources` returns exactly that error —
no resource, no missing-sources list — and the lookup is the only
call made: no worker is selected and no container is created. -/
theorem c9_lookup_error_no_side_effects (wc : WorkerClient) (s : RSession)
    (srcs : List (String × ASource)) (e : String)
    (h : wc.findContainerForIdentifier s.id = .error e) :
    (trackerInit wc s).1 = .error e ∧
    (trackerInit wc s).2 = [.findCalled s.id] ∧
    (trackerInitWithCache wc s).1 = .error e ∧
    (trackerInitWithCache wc s).2 = [.findCalled s.id] ∧
    (trackerInitWithSources wc s srcs).1 = .error e ∧
    (trackerInitWithSources wc s srcs).2 = [.findCalled s.id] := by
  unfold trackerInit trackerInitWithCache trackerInitWithSources
  rw [h]
  exact ⟨rfl, rfl, rfl, rfl, rfl, rfl⟩

/-- C9 witness: a failing lookup at a concrete client. -/
theorem c9_lookup_error_no_side_effects_witness :
    (WorkerClient.mk (fun _ => .error "nope") (fun _ => .error "unused")
        (.error "unused") (.error "unused")).findContainerForIdentifier "sid" =
      .error "nope" ∧
    (trackerInit
      (WorkerClient.mk (fun _ => .error "nope") (fun _ => .error "unused")
        (.error "unused") (.error "unused")) ⟨"sid"⟩).1 = .error "nope" ∧
    (trackerInitWithSources
      (WorkerClient.mk (fun _ => .error "nope") (fun _ => .error "unused")
        (.error "unused") (.error "unused")) ⟨"sid"⟩ []).2 =
      [.findCalled "sid"] := by
  have h := c9_lookup_error_no_side_effects
    (WorkerClient.mk (fun _ => .error "nope") (fun _ => .error "unused")
      (.error "unused") (.error "unused")) ⟨"sid"⟩ [] "nope" rfl
  exact ⟨rfl, h.1, h.2.2.2.2.2⟩

/-- Helper: a pointwise-successful effectful map succeeds as a whole. -/
theorem exceptMapM_ok_of_forall {α β : Type} (f : α → Except String β) :
    ∀ (l : List α), (∀ a ∈ l, ∃ b, f a = .ok b) →
      ∃ res, exceptMapM f l = .ok res := by
  intro l
  induction l with
  | nil => exact fun _ => ⟨[], rfl⟩
  | cons a l ih =>
      intro h
      obtain ⟨b, hb⟩ := h a (by simp)
      obtain ⟨res, hres⟩ := ih (fun a ha => h a (List.mem_cons_of_mem _ ha))
      refine ⟨b :: res, ?_⟩
      unfold exceptMapM
      rw [hb, hres]

/-- Helper: the worker-selection fold stays within the candidate set. -/
theorem foldl_betterWorker_mem (srcs : List (String × ASource)) :
    ∀ (ws : List RWorker) (w : RWorker),
      ws.foldl (betterWorker srcs) w = w ∨ ws.foldl (betterWorker srcs) w ∈ ws := by
  intro ws
  induction ws with
  | nil => exact fun w => Or.inl rfl
  | cons a ws ih =>
      intro w
      have hstep : betterWorker srcs w a = w ∨ betterWorker srcs w a = a := by
        unfold betterWorker
        split
        · exact Or.inr rfl
        · split
          · exact Or.inr rfl
          · exact Or.inl rfl
      rcases ih (betterWorker srcs w a) with h | h
      · rw [List.foldl_cons]
        rcases hstep with hs | hs
        · rw [h, hs]
          exact Or.inl rfl
        · rw [h, hs]
          exact Or.inr (by simp)
      · rw [List.foldl_cons]
        exact Or.inr (List.mem_cons_of_mem _ h)

/-- Helper: the worker-selection fold maximizes the number of locally
satisfied sources over the seed and every candidate. -/
theorem foldl_betterWorker_max (srcs : List (String × ASource)) :
    ∀ (ws : List RWorker) (w : RWorker),
      localCount srcs w ≤ localCount srcs (ws.foldl (betterWorker srcs) w) ∧
      ∀ w' ∈ ws, localCount srcs w' ≤ localCount srcs (ws.foldl (betterWorker srcs) w) := by
  intro ws
  induction ws with
  | nil => exact fun w => ⟨Nat.le_refl _, by simp⟩
  | cons a ws ih =>
      intro w
      have hw : localCount srcs w ≤ localCount srcs (betterWorker srcs w a) ∧
          localCount srcs a ≤ localCount srcs (betterWorker srcs w a) := by
        unfold betterWorker
        split
        · next hgt => exact ⟨Nat.le_of_lt hgt, Nat.le_refl _⟩
        · split
          · next _ heq => exact ⟨Nat.le_of_eq heq.1.symm, Nat.le_refl _⟩
          · next hle _ => exact ⟨Nat.le_refl _, Nat.le_of_not_lt hle⟩
      obtain ⟨ih1, ih2⟩ := ih (betterWorker srcs w a)
      rw [List.foldl_cons]
      refine ⟨Nat.le_trans hw.1 ih1, ?_⟩
      intro w' hw'
      rcases List.mem_cons.mp hw' with hw' | hw'
      · subst hw'
        exact Nat.le_trans hw.2 ih1
      · exact ih2 w' hw'

/-- Helper: a chosen worker is one of the candidates. -/
theorem chooseWorker_mem {srcs : List (String × ASource)} {ws : List RWorker}
    {w : RWorker} (h : chooseWorker srcs ws = some w) : w ∈ ws := by
  cases ws with
  | nil => exact Option.noConfusion h
  | cons w₀ rest =>
      simp only [chooseWorker] at h
      have hw : rest.foldl (betterWorker srcs) w₀ = w := Option.some.inj h
      rcases foldl_betterWorker_mem srcs rest w₀ with hm | hm
      · rw [hw] at hm
        rw [← hm]
        exact List.mem_cons_self _ _
      · rw [hw] at hm
        exact List.mem_cons_of_mem _ hm

/-- Helper: a chosen worker satisfies at least as many sources locally
as every candidate. -/
theorem chooseWorker_max {srcs : List (String × ASource)} {ws : List RWorker}
    {w : RWorker} (h : chooseWorker srcs ws = some w) :
    ∀ w' ∈ ws, localCount srcs w' ≤ localCount srcs w := by
  cases ws with
  | nil => exact Option.noConfusion h
  | cons w₀ rest =>
      simp only [chooseWorker] at h
      have hw : rest.foldl (betterWorker srcs) w₀ = w := Option.some.inj h
      intro w' hw'
      rcases List.mem_cons.mp hw' with hm | hm
      · subst hm
        rw [← hw]
        exact (foldl_betterWorker_max srcs rest w').1
      · rw [← hw]
        exact (foldl_betterWorker_max srcs rest w₀).2 w' hm

/-- Helper: on the create path of `InitWithSources` (no existing
container, candidates returned, volume lookups succeed), the container
is created — `CreateContainer` is called with the session identifier —
on the chosen worker. -/
theorem initWithSources_creates_on_chosen (wc : WorkerClient) (s : RSession)
    (srcs : List (String × ASource)) (ws : List RWorker) (w : RWorker)
    (hfind : wc.findContainerForIdentifier s.id = .ok none)
    (hall : wc.allSatisfying = .ok ws)
    (hvols : ∀ w' ∈ ws, ∃ t, sourceVolumesOn srcs w' = .ok t)
    (hch : chooseWorker srcs ws = some w) :
    TrackerEffect.createCalled (some w.name) s.id ∈ (trackerInitWithSources wc s srcs).2 := by
  obtain ⟨res, hres⟩ := exceptMapM_ok_of_forall
    (fun w' => (sourceVolumesOn srcs w').map (fun t => (w', t))) ws
    (by
      intro w' hw'
      obtain ⟨t, ht⟩ := hvols w' hw'
      refine ⟨(w', t), ?_⟩
      show Except.map (fun t => (w', t)) (sourceVolumesOn srcs w') = Except.ok (w', t)
      rw [ht]
      rfl)
  obtain ⟨t, ht⟩ := hvols w (chooseWorker_mem hch)
  simp only [trackerInitWithSources, hfind, hall, hres, hch, ht]
  cases hc : w.createContainer s.id with
  | error e => simp
  | ok c => simp

/-- C5: when no container exists for the session and several workers
satisfy the spec, `InitWithSources` creates the container on a chosen
worker that already holds volumes for at least as many of the given
artifact sources as any other candidate — never on a worker holding
fewer. -/
theorem c5_init_with_sources_picks_most_local (wc : WorkerClient) (s : RSession)
    (srcs : List (String × ASource)) (ws : List RWorker)
    (hfind : wc.findContainerForIdentifier s.id = .ok none)
    (hall : wc.allSatisfying = .ok ws)
    (hne : ws ≠ [])
    (hvols : ∀ w' ∈ ws, ∃ t, sourceVolumesOn srcs w' = .ok t) :
    ∃ w, chooseWorker srcs ws = some w ∧ w ∈ ws ∧
      (∀ w' ∈ ws, localCount srcs w' ≤ localCount srcs w) ∧
      TrackerEffect.createCalled (some w.name) s.id ∈
        (trackerInitWithSources wc s srcs).2 := by
  cases ws with
  | nil => exact absurd rfl hne
  | cons w₀ rest =>
      have hch : chooseWorker srcs (w₀ :: rest) =
          some (rest.foldl (betterWorker srcs) w₀) := rfl
      exact ⟨_, hch, chooseWorker_mem hch, chooseWorker_max hch,
        initWithSources_creates_on_chosen wc s srcs _ _ hfind hall hvols hch⟩

/-- C5 witness: three candidate workers holding volumes for 1, 2 and 0
of the three sources; the chosen worker is a maximizer. -/
theorem c5_init_with_sources_picks_most_local_witness :
    ([(⟨"worker1", 0, .ok none, .error "unused", fun _ => .error "fall out"⟩ : RWorker),
      ⟨"worker2", 5, .ok none, .error "unused", fun _ => .error "fall out"⟩,
      ⟨"worker3", 0, .ok none, .error "unused", fun _ => .error "fall out"⟩] :
        List RWorker) ≠ [] ∧
    ∃ w, chooseWorker
        [("source-1-name", ⟨fun w => if w.name = "worker2" then .ok (some ⟨"v1", []⟩)
            else .ok (some ⟨"v1x", []⟩)⟩),
         ("source-2-name", ⟨fun w => if w.name = "worker2" then .ok (some ⟨"v2", []⟩)
            else .ok none⟩),
         ("source-3-name", ⟨fun _ => .ok none⟩)]
        [⟨"worker1", 0, .ok none, .error "unused", fun _ => .error "fall out"⟩,
         ⟨"worker2", 5, .ok none, .error "unused", fun _ => .error "fall out"⟩,
         ⟨"worker3", 0, .ok none, .error "unused", fun _ => .error "fall out"⟩] = some w ∧
      w ∈ [(⟨"worker1", 0, .ok none, .error "unused", fun _ => .error "fall out"⟩ : RWorker),
           ⟨"worker2", 5, .ok none, .error "unused", fun _ => .error "fall out"⟩,
           ⟨"worker3", 0, .ok none, .error "unused", fun _ => .error "fall out"⟩] ∧
      (∀ w' ∈ [(⟨"worker1", 0, .ok none, .error "unused", fun _ => .error "fall out"⟩ : RWorker),
               ⟨"worker2", 5, .ok none, .error "unused", fun _ => .error "fall out"⟩,
               ⟨"worker3", 0, .ok none, .error "unused", fun _ => .error "fall out"⟩],
        localCount
          [("source-1-name", ⟨fun w => if w.name = "worker2" then .ok (some ⟨"v1", []⟩)
              else .ok (some ⟨"v1x", []⟩)⟩),
           ("source-2-name", ⟨fun w => if w.name = "worker2" then .ok (some ⟨"v2", []⟩)
              else .ok none⟩),
           ("source-3-name", ⟨fun _ => .ok none⟩)] w' ≤
        localCount
          [("source-1-name", ⟨fun w => if w.name = "worker2" then .ok (some ⟨"v1", []⟩)
              else .ok (some ⟨"v1x", []⟩)⟩),
           ("source-2-name", ⟨fun w => if w.name = "worker2" then .ok (some ⟨"v2", []⟩)
              else .ok none⟩),
           ("source-3-name", ⟨fun _ => .ok none⟩)] w) ∧
      TrackerEffect.createCalled (some w.name) "sid" ∈
        (trackerInitWithSources
          ⟨fun _ => .ok none, fun _ => .error "unused", .error "unused",
            .ok [⟨"worker1", 0, .ok none, .error "unused", fun _ => .error "fall out"⟩,
                 ⟨"worker2", 5, .ok none, .error "unused", fun _ => .error "fall out"⟩,
                 ⟨"worker3", 0, .ok none, .error "unused", fun _ => .error "fall out"⟩]⟩
          ⟨"sid"⟩
          [("source-1-name", ⟨fun w => if w.name = "worker2" then .ok (some ⟨"v1", []⟩)
              else .ok (some ⟨"v1x", []⟩)⟩),
           ("source-2-name", ⟨fun w => if w.name = "worker2" then .ok (some ⟨"v2", []⟩)
              else .ok none⟩),
           ("source-3-name", ⟨fun _ => .ok none⟩)]).2 := by
  refine ⟨by simp, ?_⟩
  exact c5_init_with_sources_picks_most_local _ _ _ _ rfl rfl (by simp)
    (by
      intro w' hw'
      simp only [List.mem_cons, List.not_mem_nil, or_false] at hw'
      rcases hw' with rfl | rfl | rfl
      · exact ⟨_, rfl⟩
      · exact ⟨_, rfl⟩
      · exact ⟨_, rfl⟩)

/-- C6: for each of `Init`, `InitWithCache` and `InitWithSources`,
when `FindContainerForIdentifier` finds an existing container for the
step identity, that container is reused and `CreateContainer` is never
called; when no container exists, a new one is created for the session
identifier (on the pool for `Init`, on the selected worker
otherwise). -/
theorem c6_reuse_or_create_for_session (wc : WorkerClient) (s : RSession) :
    (∀ c, wc.findContainerForIdentifier s.id = .ok (some c) →
      (trackerInit wc s).1 = .ok ⟨c⟩ ∧
      (∀ wn i, TrackerEffect.createCalled wn i ∉ (trackerInit wc s).2) ∧
      (trackerInitWithCache wc s).1 = .ok (⟨c⟩, cacheOfContainer c) ∧
      (∀ wn i, TrackerEffect.createCalled wn i ∉ (trackerInitWithCache wc s).2) ∧
      (∀ srcs, (trackerInitWithSources wc s srcs).1 = .ok (⟨c⟩, srcs.map (·.1)) ∧
        ∀ wn i, TrackerEffect.createCalled wn i ∉ (trackerInitWithSources wc s srcs).2)) ∧
    (wc.findContainerForIdentifier s.id = .ok none →
      (∀ c, wc.createContainer s.id = .ok c →
        (trackerInit wc s).1 = .ok ⟨c⟩ ∧
        TrackerEffect.createCalled none s.id ∈ (trackerInit wc s).2) ∧
      (∀ w, wc.satisfying = .ok w →
        ((∃ v, w.findCacheVolume = .ok (some v)) ∨
          (w.findCacheVolume = .ok none ∧ ∃ v, w.createCacheVolume = .ok v)) →
        TrackerEffect.createCalled (some w.name) s.id ∈ (trackerInitWithCache wc s).2) ∧
      (∀ srcs ws w, wc.allSatisfying = .ok ws →
        (∀ w' ∈ ws, ∃ t, sourceVolumesOn srcs w' = .ok t) →
        chooseWorker srcs ws = some w →
        TrackerEffect.createCalled (some w.name) s.id ∈
          (trackerInitWithSources wc s srcs).2)) := by
  constructor
  · intro c hc
    refine ⟨?_, ?_, ?_, ?_, ?_⟩
    · simp [trackerInit, hc]
    · intro wn i
      simp [trackerInit, hc]
    · simp [trackerInitWithCache, hc]
    · intro wn i
      simp [trackerInitWithCache, hc]
    · intro srcs
      constructor
      · simp [trackerInitWithSources, hc]
      · intro wn i
        simp [trackerInitWithSources, hc]
  · intro hnone
    refine ⟨?_, ?_, ?_⟩
    · intro c hc
      constructor
      · simp [trackerInit, hnone, hc]
      · simp [trackerInit, hnone, hc]
    · intro w hsat hv
      rcases hv with ⟨v, hv⟩ | ⟨hv, v, hcv⟩
      · simp only [trackerInitWithCache, hnone, hsat, hv]
        cases hc : w.createContainer s.id with
        | error e => simp
        | ok c => simp
      · simp only [trackerInitWithCache, hnone, hsat, hv, hcv]
        cases hc : w.createContainer s.id with
        | error e => simp
        | ok c => simp
    · intro srcs ws w hall hvols hch
      exact initWithSources_creates_on_chosen wc s srcs ws w hnone hall hvols hch

/-- C6 witness: a client that finds an existing container reuses it
with no create call; a client that finds none creates one for the
session identifier. -/
theorem c6_reuse_or_create_for_session_witness :
    (WorkerClient.mk (fun _ => .ok (some ⟨"existing", []⟩)) (fun _ => .error "unused")
        (.error "unused") (.error "unused")).findContainerForIdentifier "sid" =
      .ok (some ⟨"existing", []⟩) ∧
    (trackerInit
      (WorkerClient.mk (fun _ => .ok (some ⟨"existing", []⟩)) (fun _ => .error "unused")
        (.error "unused") (.error "unused")) ⟨"sid"⟩).1 = .ok ⟨⟨"existing", []⟩⟩ ∧
    (∀ wn i, TrackerEffect.createCalled wn i ∉
      (trackerInit
        (WorkerClient.mk (fun _ => .ok (some ⟨"existing", []⟩)) (fun _ => .error "unused")
          (.error "unused") (.error "unused")) ⟨"sid"⟩).2) ∧
    (trackerInit
      (WorkerClient.mk (fun _ => .ok none) (fun _ => .ok ⟨"created", []⟩)
        (.error "unused") (.error "unused")) ⟨"sid"⟩).1 = .ok ⟨⟨"created", []⟩⟩ ∧
    TrackerEffect.createCalled none "sid" ∈
      (trackerInit
        (WorkerClient.mk (fun _ => .ok none) (fun _ => .ok ⟨"created", []⟩)
          (.error "unused") (.error "unused")) ⟨"sid"⟩).2 := by
  have h1 := (c6_reuse_or_create_for_session
    (WorkerClient.mk (fun _ => .ok (some ⟨"existing", []⟩)) (fun _ => .error "unused")
      (.error "unused") (.error "unused")) ⟨"sid"⟩).1 ⟨"existing", []⟩ rfl
  have h2 := ((c6_reuse_or_create_for_session
    (WorkerClient.mk (fun _ => .ok none) (fun _ => .ok ⟨"created", []⟩)
      (.error "unused") (.error "unused")) ⟨"sid"⟩).2 rfl).1 ⟨"created", []⟩ rfl
  exact ⟨rfl, h1.1, h1.2.1, h2.1, h2.2⟩

/-! ## Claims about the pipeline-config store -/

/-- Helper: a name-keyed lookup after a name-preserving conditional
update returns the updated row. -/
theorem find?_map_update (l : List SavedPipeline) (n : String)
    (f : SavedPipeline → SavedPipeline) (hf : ∀ p, (f p).name = p.name) :
    (l.map (fun q => if q.name == n then f q else q)).find? (fun p => p.name == n) =
      (l.find? (fun p => p.name == n)).map f := by
  induction l with
  | nil => rfl
  | cons p l ih =>
      by_cases h : (p.name == n) = true
      · simp only [List.map_cons, h, if_true]
        rw [@List.find?_cons_of_pos _ (fun q => q.name == n) (f p) _
          (by show ((f p).name == n) = true; rw [hf]; exact h)]
        rw [@List.find?_cons_of_pos _ (fun q => q.name == n) p _ h]
        rfl
      · have hb : (p.name == n) = false := by simpa using h
        simp only [List.map_cons, hb, Bool.false_eq_true, if_false]
        rw [@List.find?_cons_of_neg _ (fun q => q.name == n) p _ h]
        rw [@List.find?_cons_of_neg _ (fun q => q.name == n) p _ h]
        exact ih

/-- C4: `SaveConfig` on an existing pipeline is an optimistic
compare-and-swap on `config_version`: called with a from-version
different from the current one it returns `ErrConfigComparisonFailed`
and leaves the stored config and version unchanged; called with the
current version it succeeds (`created = false`) and the stored config
version changes to a new value. -/
theorem c4_save_config_version_cas (st : DBState) (name : String) (cfg : Config)
    (fromVersion : Nat) (ps : PipelinePausedState) (p : SavedPipeline)
    (hfind : findPipeline st name = some p)
    (hwf : ∀ q ∈ st.pipelines, q.version < st.nextVersion) :
    (fromVersion ≠ p.version →
      saveConfig st name cfg fromVersion ps = .error .errConfigComparisonFailed ∧
      saveConfigState st name cfg fromVersion ps = st) ∧
    (∃ st', saveConfig st name cfg p.version ps = .ok (st', false) ∧
      saveConfigState st name cfg p.version ps = st' ∧
      ∃ p', findPipeline st' name = some p' ∧
        p'.config = cfg ∧ p'.version = st.nextVersion ∧ p'.version ≠ p.version) := by
  have hmem : p ∈ st.pipelines := List.mem_of_find?_eq_some hfind
  have hvp : p.version < st.nextVersion := hwf p hmem
  constructor
  · intro hne
    constructor
    · unfold saveConfig
      rw [hfind]
      simp [hne]
    · unfold saveConfigState saveConfig
      rw [hfind]
      simp [hne]
  · have hok : saveConfig st name cfg p.version ps =
        .ok ({ st with
                 pipelines := st.pipelines.map
                   (fun q => if q.name == name then updatePipeline st cfg ps q else q),
                 nextVersion := st.nextVersion + 1 },
             false) := by
      unfold saveConfig
      rw [hfind]
      simp
    refine ⟨_, hok, ?_, updatePipeline st cfg ps p, ?_, rfl, rfl, ?_⟩
    · unfold saveConfigState
      rw [hok]
    · show (st.pipelines.map
          (fun q => if q.name == name then updatePipeline st cfg ps q else q)).find?
            (fun q => q.name == name) = _
      rw [find?_map_update st.pipelines name (updatePipeline st cfg ps) (fun _ => rfl)]
      rw [show st.pipelines.find? (fun q => q.name == name) = some p from hfind]
      rfl
    · show st.nextVersion ≠ p.version
      omega

/-- C4 witness: a one-pipeline store at version 1; from-version 5 fails
and changes nothing, from-version 1 succeeds with a fresh version. -/
theorem c4_save_config_version_cas_witness :
    findPipeline ⟨[⟨1, "some-pipeline", "cfg0", 1, false, 1⟩], 2, 2⟩ "some-pipeline" =
      some ⟨1, "some-pipeline", "cfg0", 1, false, 1⟩ ∧
    ((5 ≠ (⟨1, "some-pipeline", "cfg0", 1, false, 1⟩ : SavedPipeline).version →
      saveConfig ⟨[⟨1, "some-pipeline", "cfg0", 1, false, 1⟩], 2, 2⟩ "some-pipeline"
          "cfg1" 5 .pipelineUnpaused = .error .errConfigComparisonFailed ∧
      saveConfigState ⟨[⟨1, "some-pipeline", "cfg0", 1, false, 1⟩], 2, 2⟩ "some-pipeline"
          "cfg1" 5 .pipelineUnpaused = ⟨[⟨1, "some-pipeline", "cfg0", 1, false, 1⟩], 2, 2⟩) ∧
    (∃ st', saveConfig ⟨[⟨1, "some-pipeline", "cfg0", 1, false, 1⟩], 2, 2⟩ "some-pipeline"
        "cfg1" (⟨1, "some-pipeline", "cfg0", 1, false, 1⟩ : SavedPipeline).version
        .pipelineUnpaused = .ok (st', false) ∧
      saveConfigState ⟨[⟨1, "some-pipeline", "cfg0", 1, false, 1⟩], 2, 2⟩ "some-pipeline"
        "cfg1" (⟨1, "some-pipeline", "cfg0", 1, false, 1⟩ : SavedPipeline).version
        .pipelineUnpaused = st' ∧
      ∃ p', findPipeline st' "some-pipeline" = some p' ∧
        p'.config = "cfg1" ∧ p'.version = 2 ∧
        p'.version ≠ (⟨1, "some-pipeline", "cfg0", 1, false, 1⟩ : SavedPipeline).version)) :=
  ⟨rfl, c4_save_config_version_cas ⟨[⟨1, "some-pipeline", "cfg0", 1, false, 1⟩], 2, 2⟩
    "some-pipeline" "cfg1" 5 .pipelineUnpaused ⟨1, "some-pipeline", "cfg0", 1, false, 1⟩
    rfl (by decide)⟩

/-- C10: `SaveConfig` with `PipelineNoChange` leaves an existing
pipeline's paused flag as it was, while a pipeline newly created with
`PipelineNoChange` defaults to paused. -/
theorem c10_paused_no_change (st : DBState) (name : String) (cfg : Config) :
    (∀ p, findPipeline st name = some p →
      ∃ st', saveConfig st name cfg p.version .pipelineNoChange = .ok (st', false) ∧
        ∃ p', findPipeline st' name = some p' ∧ p'.paused = p.paused) ∧
    (findPipeline st name = none →
      ∃ st', saveConfig st name cfg 0 .pipelineNoChange = .ok (st', true) ∧
        ∃ p', findPipeline st' name = some p' ∧ p'.paused = true) := by
  constructor
  · intro p hfind
    have hok : saveConfig st name cfg p.version .pipelineNoChange =
        .ok ({ st with
                 pipelines := st.pipelines.map
                   (fun q => if q.name == name then
                     updatePipeline st cfg .pipelineNoChange q else q),
                 nextVersion := st.nextVersion + 1 },
             false) := by
      unfold saveConfig
      rw [hfind]
      simp
    refine ⟨_, hok, updatePipeline st cfg .pipelineNoChange p, ?_, rfl⟩
    show (st.pipelines.map
        (fun q => if q.name == name then updatePipeline st cfg .pipelineNoChange q else q)).find?
          (fun q => q.name == name) = _
    rw [find?_map_update st.pipelines name (updatePipeline st cfg .pipelineNoChange)
      (fun _ => rfl)]
    rw [show st.pipelines.find? (fun q => q.name == name) = some p from hfind]
    rfl
  · intro hnone
    refine ⟨{ pipelines := st.pipelines ++ [mkNewPipeline st name cfg .pipelineNoChange],
              nextId := st.nextId + 1, nextVersion := st.nextVersion + 1 }, ?_,
            mkNewPipeline st name cfg .pipelineNoChange, ?_, rfl⟩
    · unfold saveConfig
      rw [hnone]
    · show (st.pipelines ++ [mkNewPipeline st name cfg .pipelineNoChange]).find?
          (fun q => q.name == name) = _
      rw [List.find?_append]
      rw [show st.pipelines.find? (fun q => q.name == name) = none from hnone]
      simp [mkNewPipeline]

/-- C10 witness: a paused pipeline saved with `PipelineNoChange` stays
paused; a pipeline created with `PipelineNoChange` is paused. -/
theorem c10_paused_no_change_witness :
    findPipeline ⟨[⟨1, "some-pipeline", "cfg0", 1, true, 1⟩], 2, 2⟩ "some-pipeline" =
      some ⟨1, "some-pipeline", "cfg0", 1, true, 1⟩ ∧
    (∃ st', saveConfig ⟨[⟨1, "some-pipeline", "cfg0", 1, true, 1⟩], 2, 2⟩ "some-pipeline"
        "cfg1" (⟨1, "some-pipeline", "cfg0", 1, true, 1⟩ : SavedPipeline).version
        .pipelineNoChange = .ok (st', false) ∧
      ∃ p', findPipeline st' "some-pipeline" = some p' ∧
        p'.paused = (⟨1, "some-pipeline", "cfg0", 1, true, 1⟩ : SavedPipeline).paused) ∧
    (∃ st', saveConfig ⟨[], 1, 1⟩ "a-pipeline-name" "cfg" 0 .pipelineNoChange =
        .ok (st', true) ∧
      ∃ p', findPipeline st' "a-pipeline-name" = some p' ∧ p'.paused = true) :=
  ⟨rfl,
   (c10_paused_no_change ⟨[⟨1, "some-pipeline", "cfg0", 1, true, 1⟩], 2, 2⟩
     "some-pipeline" "cfg1").1 ⟨1, "some-pipeline", "cfg0", 1, true, 1⟩ rfl,
   (c10_paused_no_change ⟨[], 1, 1⟩ "a-pipeline-name" "cfg").2 rfl⟩

/-- Helper: in a list sorted by `ordering` then `id`, a strictly
smaller row sits at a strictly earlier position. -/
theorem sorted_pos_lt {l : List SavedPipeline} (hs : List.Sorted pipelineLe l)
    (i j : Fin l.length) (h : pipelineLt (l.get i) (l.get j)) : (i : Nat) < (j : Nat) := by
  rcases Nat.lt_trichotomy (i : Nat) (j : Nat) with h1 | h1 | h1
  · exact h1
  · exfalso
    have hij : i = j := Fin.ext h1
    rw [hij] at h
    unfold pipelineLt at h
    omega
  · exfalso
    have hle : pipelineLe (l.get j) (l.get i) := hs.rel_get_of_lt (show j < i from h1)
    unfold pipelineLe at hle
    unfold pipelineLt at h
    omega

/-- Helper: every row of `orderPipelines st names` keeps its name and
carries its position in the matched list as ordering when listed, and
`count + 1` otherwise. -/
theorem mem_orderPipelines_ordering {st : DBState} {names : List String}
    {q : SavedPipeline} (hq : q ∈ (orderPipelines st names).pipelines) :
    (q.name ∈ matchedNames st names →
      q.ordering = List.indexOf q.name (matchedNames st names)) ∧
    (q.name ∉ matchedNames st names → q.ordering = st.pipelines.length + 1) := by
  unfold orderPipelines at hq
  simp only [List.mem_map] at hq
  obtain ⟨p₀, _, rfl⟩ := hq
  unfold reorderPipeline
  by_cases h : p₀.name ∈ matchedNames st names
  · rw [if_pos h]
    exact ⟨fun _ => rfl, fun hn => absurd h hn⟩
  · rw [if_neg h]
    exact ⟨fun hn => absurd hn h, fun _ => rfl⟩

/-- Helper: a matched name is the name of some stored pipeline. -/
theorem matched_name_exists {st : DBState} {names : List String} {n : String}
    (h : n ∈ matchedNames st names) : ∃ p ∈ st.pipelines, p.name = n := by
  unfold matchedNames at h
  have h2 := List.of_mem_filter h
  obtain ⟨p, hp⟩ := Option.isSome_iff_exists.mp h2
  refine ⟨p, List.mem_of_find?_eq_some hp, ?_⟩
  have := List.find?_some hp
  simpa using this

/-- Helper: filtering for matched names is idempotent. -/
theorem matchedNames_idem (st : DBState) (names : List String) :
    matchedNames st (matchedNames st names) = matchedNames st names := by
  unfold matchedNames
  rw [List.filter_filter]
  apply List.filter_congr
  intro a _
  exact Bool.and_self _

/-- Helper: with distinct order-list names, there are no more matched
names than stored pipelines. -/
theorem matchedNames_length_le {st : DBState} {names : List String}
    (hnodup : names.Nodup) :
    (matchedNames st names).length ≤ st.pipelines.length := by
  have hnd : (matchedNames st names).Nodup := hnodup.filter _
  have hsub : matchedNames st names ⊆ st.pipelines.map (fun p => p.name) := by
    intro n hn
    obtain ⟨p, hp, hpn⟩ := matched_name_exists hn
    exact List.mem_map.mpr ⟨p, hp, hpn⟩
  have := (List.subperm_of_subset hnd hsub).length_le
  simpa using this

/-- C8: `GetAllActivePipelines` lists the pipelines sorted by
`ordering` then `id`; after `OrderPipelines(names)` the listed
pipelines appear in exactly the order given, names matching no
pipeline have no effect, and a pipeline saved after the ordering call
appears after all explicitly ordered ones. -/
theorem c8_order_pipelines_listing (st : DBState) (names : List String)
    (newName : String) (cfg : Config) (ps : PipelinePausedState)
    (hnodup : names.Nodup)
    (hfresh : findPipeline (orderPipelines st names) newName = none) :
    (∀ st₀ : DBState, (getAllActivePipelines st₀).Sorted pipelineLe ∧
      List.Perm (getAllActivePipelines st₀) st₀.pipelines) ∧
    (∀ (i j : Fin (getAllActivePipelines (orderPipelines st names)).length),
      ((getAllActivePipelines (orderPipelines st names)).get i).name ∈
        matchedNames st names →
      ((getAllActivePipelines (orderPipelines st names)).get j).name ∈
        matchedNames st names →
      List.indexOf ((getAllActivePipelines (orderPipelines st names)).get i).name
          (matchedNames st names) <
        List.indexOf ((getAllActivePipelines (orderPipelines st names)).get j).name
          (matchedNames st names) →
      (i : Nat) < (j : Nat)) ∧
    (orderPipelines st names = orderPipelines st (matchedNames st names)) ∧
    (saveConfig (orderPipelines st names) newName cfg 0 ps =
        .ok (saveConfigState (orderPipelines st names) newName cfg 0 ps, true) ∧
      mkNewPipeline (orderPipelines st names) newName cfg ps ∈
        getAllActivePipelines (saveConfigState (orderPipelines st names) newName cfg 0 ps) ∧
      ∀ (i j : Fin (getAllActivePipelines
          (saveConfigState (orderPipelines st names) newName cfg 0 ps)).length),
        (getAllActivePipelines
          (saveConfigState (orderPipelines st names) newName cfg 0 ps)).get i =
            mkNewPipeline (orderPipelines st names) newName cfg ps →
        ((getAllActivePipelines
          (saveConfigState (orderPipelines st names) newName cfg 0 ps)).get j).name ∈
            matchedNames st names →
        (j : Nat) < (i : Nat)) := by
  have hsorted : ∀ st₀ : DBState, (getAllActivePipelines st₀).Sorted pipelineLe ∧
      List.Perm (getAllActivePipelines st₀) st₀.pipelines :=
    fun st₀ => ⟨List.sorted_insertionSort pipelineLe st₀.pipelines,
      List.perm_insertionSort pipelineLe st₀.pipelines⟩
  have hnew : newName ∉ matchedNames st names := by
    intro hmem
    obtain ⟨p, hp, hpn⟩ := matched_name_exists hmem
    have hmem' : reorderPipeline (matchedNames st names) st.pipelines.length p ∈
        (orderPipelines st names).pipelines := by
      unfold orderPipelines
      exact List.mem_map.mpr ⟨p, hp, rfl⟩
    have hname : (reorderPipeline (matchedNames st names) st.pipelines.length p).name =
        newName := by
      unfold reorderPipeline
      by_cases h : p.name ∈ matchedNames st names
      · rw [if_pos h]
        exact hpn
      · rw [if_neg h]
        exact hpn
    have := (List.find?_eq_none.mp hfresh) _ hmem'
    rw [hname] at this
    simp at this
  have hok : saveConfig (orderPipelines st names) newName cfg 0 ps =
      .ok ({ pipelines := (orderPipelines st names).pipelines ++
               [mkNewPipeline (orderPipelines st names) newName cfg ps],
             nextId := (orderPipelines st names).nextId + 1,
             nextVersion := (orderPipelines st names).nextVersion + 1 },
           true) := by
    unfold saveConfig
    rw [hfresh]
  have hstate : saveConfigState (orderPipelines st names) newName cfg 0 ps =
      { pipelines := (orderPipelines st names).pipelines ++
          [mkNewPipeline (orderPipelines st names) newName cfg ps],
        nextId := (orderPipelines st names).nextId + 1,
        nextVersion := (orderPipelines st names).nextVersion + 1 } := by
    unfold saveConfigState
    rw [hok]
  refine ⟨hsorted, ?_, ?_, ?_⟩
  · intro i j hi hj hidx
    apply sorted_pos_lt (hsorted (orderPipelines st names)).1 i j
    have hmi : (getAllActivePipelines (orderPipelines st names)).get i ∈
        (orderPipelines st names).pipelines :=
      ((hsorted (orderPipelines st names)).2.mem_iff).mp (List.get_mem _ i.1 i.2)
    have hmj : (getAllActivePipelines (orderPipelines st names)).get j ∈
        (orderPipelines st names).pipelines :=
      ((hsorted (orderPipelines st names)).2.mem_iff).mp (List.get_mem _ j.1 j.2)
    have hoi := (mem_orderPipelines_ordering hmi).1 hi
    have hoj := (mem_orderPipelines_ordering hmj).1 hj
    unfold pipelineLt
    left
    rw [hoi, hoj]
    exact hidx
  · unfold orderPipelines
    rw [matchedNames_idem]
  · refine ⟨by rw [hstate]; exact hok, ?_, ?_⟩
    · rw [hstate]
      refine ((hsorted _).2.mem_iff).mpr ?_
      simp
    · intro i j hi hj
      apply sorted_pos_lt (hsorted _).1 j i
      rw [hi]
      set q := (getAllActivePipelines
        (saveConfigState (orderPipelines st names) newName cfg 0 ps)).get j with hqdef
      have h0 : q ∈ (saveConfigState (orderPipelines st names) newName cfg 0 ps).pipelines :=
        ((hsorted _).2.mem_iff).mp (List.get_mem _ j.1 j.2)
      rw [hstate] at h0
      rcases List.mem_append.mp h0 with hmem | hmem
      · have hoj := (mem_orderPipelines_ordering hmem).1 hj
        have hidx : List.indexOf q.name (matchedNames st names) <
            (matchedNames st names).length :=
          List.indexOf_lt_length.mpr hj
        have hlen := @matchedNames_length_le st names hnodup
        have hmaplen : (orderPipelines st names).pipelines.length = st.pipelines.length := by
          unfold orderPipelines
          simp
        unfold pipelineLt
        left
        rw [hoj]
        show _ < (mkNewPipeline (orderPipelines st names) newName cfg ps).ordering
        unfold mkNewPipeline
        simp only
        omega
      · exfalso
        simp only [List.mem_singleton] at hmem
        have hqn : q.name = newName := by
          rw [hmem]
          rfl
        rw [hqn] at hj
        exact hnew hj

/-- C8 witness: three stored pipelines, an ordering call listing two of
them plus a bogus name, and a pipeline saved afterwards. -/
theorem c8_order_pipelines_listing_witness :
    (["pipeline-2", "pipeline-1", "bogus-pipeline-name"] : List String).Nodup ∧
    findPipeline
      (orderPipelines
        ⟨[⟨1, "some-pipeline", "c", 1, false, 1⟩, ⟨2, "pipeline-1", "c", 2, false, 2⟩,
          ⟨3, "pipeline-2", "c", 3, false, 3⟩], 4, 4⟩
        ["pipeline-2", "pipeline-1", "bogus-pipeline-name"]) "pipeline-6" = none ∧
    orderPipelines
      ⟨[⟨1, "some-pipeline", "c", 1, false, 1⟩, ⟨2, "pipeline-1", "c", 2, false, 2⟩,
        ⟨3, "pipeline-2", "c", 3, false, 3⟩], 4, 4⟩
      ["pipeline-2", "pipeline-1", "bogus-pipeline-name"] =
    orderPipelines
      ⟨[⟨1, "some-pipeline", "c", 1, false, 1⟩, ⟨2, "pipeline-1", "c", 2, false, 2⟩,
        ⟨3, "pipeline-2", "c", 3, false, 3⟩], 4, 4⟩
      (matchedNames
        ⟨[⟨1, "some-pipeline", "c", 1, false, 1⟩, ⟨2, "pipeline-1", "c", 2, false, 2⟩,
          ⟨3, "pipeline-2", "c", 3, false, 3⟩], 4, 4⟩
        ["pipeline-2", "pipeline-1", "bogus-pipeline-name"]) ∧
    saveConfig
      (orderPipelines
        ⟨[⟨1, "some-pipeline", "c", 1, false, 1⟩, ⟨2, "pipeline-1", "c", 2, false, 2⟩,
          ⟨3, "pipeline-2", "c", 3, false, 3⟩], 4, 4⟩
        ["pipeline-2", "pipeline-1", "bogus-pipeline-name"]) "pipeline-6" "c" 0
        .pipelineUnpaused =
      .ok (saveConfigState
        (orderPipelines
          ⟨[⟨1, "some-pipeline", "c", 1, false, 1⟩, ⟨2, "pipeline-1", "c", 2, false, 2⟩,
            ⟨3, "pipeline-2", "c", 3, false, 3⟩], 4, 4⟩
          ["pipeline-2", "pipeline-1", "bogus-pipeline-name"]) "pipeline-6" "c" 0
          .pipelineUnpaused, true) := by
  have h := c8_order_pipelines_listing
    ⟨[⟨1, "some-pipeline", "c", 1, false, 1⟩, ⟨2, "pipeline-1", "c", 2, false, 2⟩,
      ⟨3, "pipeline-2", "c", 3, false, 3⟩], 4, 4⟩
    ["pipeline-2", "pipeline-1", "bogus-pipeline-name"] "pipeline-6" "c"
    .pipelineUnpaused (by decide) rfl
  exact ⟨by decide, rfl, h.2.2.1, h.2.2.2.1⟩

end Atc
